import Mathlib

/-!
Shallow embedding of the translation-unit cache of `SourceIndex.cpp`
(`rstudio::core::libclang::SourceIndex`).  The cache maps a filename to a
`StoredTranslationUnit` (compile arguments, last observed write time, and the
opaque `CXTranslationUnit` handle).  Calls into libclang (`parse`, `reparse`,
`dispose`) and error logging are recorded as an explicit event trace; the
outcomes of the fallible libclang calls are inputs of each invocation.
-/

namespace SourceIndexModel

/-- One cached record, mirroring `StoredTranslationUnit` in `SourceIndex.hpp`:
the compile arguments used to build the unit, the file's last write time
observed at build/reparse time, and the opaque translation-unit handle
(modelled as a natural-number identity issued by the analyzer model). -/
structure StoredTranslationUnit where
  compileArgs : List String
  lastWriteTime : Int
  tu : Nat
  deriving Repr, DecidableEq

/-- Observable calls into libclang plus error-log emissions, in program
order: `evReparse tu` records a `clang().reparseTranslationUnit` call on
handle `tu`; `evParse` a `clang().parseTranslationUnit` call; `evDispose tu`
a `clang().disposeTranslationUnit(tu)` call; `evLogError msg` a
`LOG_ERROR_MESSAGE(msg)`. -/
inductive ClangEvent where
  | evReparse (tu : Nat)
  | evParse
  | evDispose (tu : Nat)
  | evLogError (msg : String)
  deriving Repr, DecidableEq

/-- The `translationUnits_` member: a `std::map<std::string,
StoredTranslationUnit>` modelled as an association list with unique keys
(uniqueness is the map's invariant, proved below, not baked into the type). -/
abbrev TranslationUnits := List (String × StoredTranslationUnit)

/-- `translationUnits_.find(filename)` (`std::map::find`): first entry whose
key equals the filename. -/
def lookupTU : TranslationUnits → String → Option StoredTranslationUnit
  | [], _ => none
  | p :: rest, k => if p.1 = k then some p.2 else lookupTU rest k

/-- `translationUnits_.erase(filename)`: drop the entry for the key. -/
def eraseTU : TranslationUnits → String → TranslationUnits
  | [], _ => []
  | p :: rest, k => if p.1 = k then eraseTU rest k else p :: eraseTU rest k

/-- `it->second = v` through the iterator returned by `find`: replace the
value of the first entry with the given key, in place. -/
def updateTU : TranslationUnits → String → StoredTranslationUnit → TranslationUnits
  | [], _, _ => []
  | p :: rest, k, v => if p.1 = k then (k, v) :: rest else p :: updateTU rest k v

/-- `translationUnits_[filename] = v` (`std::map::operator[]` + assignment):
replace in place if the key exists, otherwise append a new entry. -/
def insertTU : TranslationUnits → String → StoredTranslationUnit → TranslationUnits
  | [], k, v => [(k, v)]
  | p :: rest, k, v => if p.1 = k then (k, v) :: rest else p :: insertTU rest k v

/-- The mutable state of a `SourceIndex`: the cache map, the `verbose_`
level, and the allocator for fresh translation-unit handles (standing in for
the addresses libclang returns from successful `parseTranslationUnit`
calls; every successful parse yields a handle never seen before). -/
structure SourceIndex where
  translationUnits : TranslationUnits
  verbose : Int
  nextHandle : Nat
  deriving Repr, DecidableEq

/-- `SourceIndex::SourceIndex(db, verbose)`: empty cache, given verbosity,
no handles issued yet. -/
def SourceIndex.create (verbose : Int) : SourceIndex :=
  { translationUnits := [], verbose := verbose, nextHandle := 0 }

/-- The per-call environment: what the external collaborators answer during
one `getTranslationUnit` invocation.  `providerArgs = none` models a null
`compilationDB_.compileArgsForTranslationUnit` member; `some args` models the
provider returning `args`.  `fsTime` is the filesystem's answer for the
file's last write time (`none` = the file is missing or cannot be stat'ed).
`reparseOk`/`parseOk` are the outcomes libclang would give to the (at most
one) reparse and parse call made during the invocation. -/
structure CallEnv where
  providerArgs : Option (List String)
  fsTime : Option Int
  reparseOk : Bool
  parseOk : Bool
  deriving Repr, DecidableEq

/-- Modelled from the spec: `FilePath::lastWriteTime` is not among the
sources (only its call site is); §7(b) of the spec classes a missing or
unreadable file as an error reported once by the file-system layer, and the
call site receives a plain `std::time_t` by value, so failure is modelled as
the sentinel time `0` (the call does not throw). -/
def lastWriteTimeOf : Option Int → Int
  | some t => t
  | none => 0

/-- Result of one `getTranslationUnit` call: the returned handle (`none` is
the empty `TranslationUnit()`), the state of the `SourceIndex` afterwards,
and the trace of libclang calls and error logs made, in order. -/
structure GtuResult where
  result : Option Nat
  state : SourceIndex
  events : List ClangEvent
  deriving Repr, DecidableEq

/-- `SourceIndex::removeTranslationUnit(filename)`: if a record exists,
dispose its unit and erase the record; otherwise do nothing. -/
def removeTranslationUnit (st : SourceIndex) (filename : String) :
    SourceIndex × List ClangEvent :=
  match lookupTU st.translationUnits filename with
  | some stored =>
      ({ st with translationUnits := eraseTU st.translationUnits filename },
       [ClangEvent.evDispose stored.tu])
  | none => (st, [])

/-- `SourceIndex::removeAllTranslationUnits()`: dispose every record's unit
and clear the map. -/
def removeAllTranslationUnits (st : SourceIndex) : SourceIndex × List ClangEvent :=
  ({ st with translationUnits := [] },
   st.translationUnits.map (fun p => ClangEvent.evDispose p.2.tu))

/-- The tail of `getTranslationUnit` from the comment "if we got this far"
on: remove any existing translation unit (disposing it), append `-v` to the
args when `verbose_ >= 2`, call `parseTranslationUnit`, and on success store
and return the new unit; on failure log an error and return empty. -/
def fullRebuild (st : SourceIndex) (env : CallEnv) (filename : String)
    (args0 : List String) (lastWriteTime : Int) : GtuResult :=
  let rm := removeTranslationUnit st filename
  let st1 := rm.1
  let args := if st1.verbose ≥ 2 then args0 ++ ["-v"] else args0
  if env.parseOk then
    { result := some st1.nextHandle
      state := { st1 with
                 translationUnits :=
                   insertTU st1.translationUnits filename
                     ⟨args, lastWriteTime, st1.nextHandle⟩
                 nextHandle := st1.nextHandle + 1 }
      events := rm.2 ++ [ClangEvent.evParse] }
  else
    { result := none
      state := st1
      events := rm.2 ++ [ClangEvent.evParse,
                         ClangEvent.evLogError
                           ("Error parsing translation unit " ++ filename)] }

/-- The branch of `getTranslationUnit` taken when `translationUnits_`
already holds a record for the file (the C++ local `lastWriteTime` is the
inlined `lastWriteTimeOf env.fsTime`): the hit / reparse cascade of the
source.  On reparse failure the error is logged and control falls through to
the full-rebuild tail, exactly as in the source. -/
def gtuStored (st : SourceIndex) (env : CallEnv) (filename : String)
    (alwaysReparse : Bool) (args : List String)
    (stored : StoredTranslationUnit) : GtuResult :=
  if alwaysReparse = false ∧ args = stored.compileArgs ∧
      lastWriteTimeOf env.fsTime = stored.lastWriteTime then
    -- "Index already up to date": return the stored unit, no libclang call
    { result := some stored.tu, state := st, events := [] }
  else if args = stored.compileArgs then
    if env.reparseOk then
      { result := some stored.tu
        state := { st with
                   translationUnits :=
                     updateTU st.translationUnits filename
                       { stored with lastWriteTime := lastWriteTimeOf env.fsTime } }
        events := [ClangEvent.evReparse stored.tu] }
    else
      { fullRebuild st env filename args (lastWriteTimeOf env.fsTime) with
        events := ClangEvent.evReparse stored.tu ::
                  ClangEvent.evLogError
                    ("Error re-parsing translation unit " ++ filename) ::
                  (fullRebuild st env filename args
                     (lastWriteTimeOf env.fsTime)).events }
  else
    fullRebuild st env filename args (lastWriteTimeOf env.fsTime)

/-- The body of `getTranslationUnit` after the argument fetch: look the
file up and run the hit / reparse / full-rebuild cascade of the source. -/
def gtuBody (st : SourceIndex) (env : CallEnv) (filename : String)
    (alwaysReparse : Bool) (args : List String) : GtuResult :=
  match lookupTU st.translationUnits filename with
  | some stored => gtuStored st env filename alwaysReparse args stored
  | none => fullRebuild st env filename args (lastWriteTimeOf env.fsTime)

/-- `SourceIndex::getTranslationUnit(filename, alwaysReparse)`: fetch the
compile args from the compilation database when the provider is set, return
the empty unit immediately when the provider answers with an empty list, and
otherwise run the cache body. -/
def getTranslationUnit (st : SourceIndex) (env : CallEnv) (filename : String)
    (alwaysReparse : Bool) : GtuResult :=
  match env.providerArgs with
  | some args =>
      if args = [] then { result := none, state := st, events := [] }
      else gtuBody st env filename alwaysReparse args
  | none => gtuBody st env filename alwaysReparse []

/-- One cache-mutating operation, for reachability statements: a
`getTranslationUnit` call with its environment, `removeTranslationUnit`,
`removeAllTranslationUnits`, or the prime/reprime helpers. -/
inductive CacheOp where
  | gtu (env : CallEnv) (filename : String) (alwaysReparse : Bool)
  | remove (filename : String)
  | removeAll
  | prime (env : CallEnv) (filename : String)
  | reprime (env : CallEnv) (filename : String)
  deriving Repr, DecidableEq

/-- Apply one operation to the index, collecting its event trace.
`primeEditorTranslationUnit` calls `getTranslationUnit` only when no record
exists; `reprimeEditorTranslationUnit` only when one does (both with the
default `alwaysReparse = false` of the declaration). -/
def applyOp (st : SourceIndex) : CacheOp → SourceIndex × List ClangEvent
  | CacheOp.gtu env f aR =>
      let r := getTranslationUnit st env f aR
      (r.state, r.events)
  | CacheOp.remove f => removeTranslationUnit st f
  | CacheOp.removeAll => removeAllTranslationUnits st
  | CacheOp.prime env f =>
      match lookupTU st.translationUnits f with
      | none =>
          let r := getTranslationUnit st env f false
          (r.state, r.events)
      | some _ => (st, [])
  | CacheOp.reprime env f =>
      match lookupTU st.translationUnits f with
      | some _ =>
          let r := getTranslationUnit st env f false
          (r.state, r.events)
      | none => (st, [])

/-- Run a sequence of cache operations, threading the state and
concatenating the event traces. -/
def runOps (st : SourceIndex) : List CacheOp → SourceIndex × List ClangEvent
  | [] => (st, [])
  | op :: ops =>
      let r := applyOp st op
      let r2 := runOps r.1 ops
      (r2.1, r.2 ++ r2.2)

/-- The keys (paths) of the cache map. -/
def keysOf (m : TranslationUnits) : List String := m.map Prod.fst

/-- The translation-unit handles held by the cache map. -/
def handlesOf (m : TranslationUnits) : List Nat := m.map (fun p => p.2.tu)

/-- The cache's structural invariant: at most one record per path, all held
unit handles pairwise distinct (at most one live unit per path and no
sharing across paths), and every held handle was issued by the allocator. -/
def Inv (st : SourceIndex) : Prop :=
  (keysOf st.translationUnits).Nodup ∧
  (handlesOf st.translationUnits).Nodup ∧
  ∀ u ∈ handlesOf st.translationUnits, u < st.nextHandle

/-- Number of `disposeTranslationUnit` calls in a trace. -/
def disposeCount (evs : List ClangEvent) : Nat :=
  (evs.filter (fun e => match e with
    | ClangEvent.evDispose _ => true
    | _ => false)).length

/-- Environment of the `i`-th call of the rebuild scenario: the provider
answers a fresh, nonempty argument list (distinct for each `i`), the file's
mtime is constant, and both libclang calls would succeed. -/
def rebuildEnv (i : Nat) : CallEnv :=
  { providerArgs := some (List.replicate (i + 1) "a")
    fsTime := some 0
    reparseOk := true
    parseOk := true }

/-- `N` consecutive argument-change rebuilds of one path followed by the
final cleanup (`removeAllTranslationUnits`). -/
def rebuildOps (f : String) (N : Nat) : List CacheOp :=
  (List.range N).map (fun i => CacheOp.gtu (rebuildEnv i) f false) ++
    [CacheOp.removeAll]

@[simp]
theorem keysOf_nil : keysOf ([] : TranslationUnits) = [] := rfl

@[simp]
theorem keysOf_cons (p : String × StoredTranslationUnit) (rest : TranslationUnits) :
    keysOf (p :: rest) = p.1 :: keysOf rest := rfl

@[simp]
theorem handlesOf_nil : handlesOf ([] : TranslationUnits) = [] := rfl

@[simp]
theorem handlesOf_cons (p : String × StoredTranslationUnit) (rest : TranslationUnits) :
    handlesOf (p :: rest) = p.2.tu :: handlesOf rest := rfl

theorem lookupTU_eq_none_iff (m : TranslationUnits) (k : String) :
    lookupTU m k = none ↔ k ∉ keysOf m := by
  induction m with
  | nil => simp [lookupTU]
  | cons p rest ih =>
    by_cases h : p.1 = k
    · simp [lookupTU, h]
    · rw [lookupTU, if_neg h, ih]
      simp only [keysOf_cons, List.mem_cons]
      constructor
      · rintro hk (rfl | hm)
        · exact h rfl
        · exact hk hm
      · intro hk hm
        exact hk (Or.inr hm)

theorem eraseTU_sublist (m : TranslationUnits) (k : String) :
    (eraseTU m k).Sublist m := by
  induction m with
  | nil => simp [eraseTU]
  | cons p rest ih =>
    by_cases h : p.1 = k
    · rw [eraseTU, if_pos h]
      exact ih.trans (List.sublist_cons_self p rest)
    · rw [eraseTU, if_neg h]
      exact ih.cons₂ p

theorem keysOf_erase_sublist (m : TranslationUnits) (k : String) :
    (keysOf (eraseTU m k)).Sublist (keysOf m) :=
  (eraseTU_sublist m k).map Prod.fst

theorem handlesOf_erase_sublist (m : TranslationUnits) (k : String) :
    (handlesOf (eraseTU m k)).Sublist (handlesOf m) := by
  unfold handlesOf
  exact (eraseTU_sublist m k).map _

theorem not_mem_keysOf_erase (m : TranslationUnits) (k : String) :
    k ∉ keysOf (eraseTU m k) := by
  induction m with
  | nil => simp [eraseTU]
  | cons p rest ih =>
    by_cases h : p.1 = k
    · rw [eraseTU, if_pos h]; exact ih
    · rw [eraseTU, if_neg h]
      simp only [keysOf_cons, List.mem_cons]
      rintro (rfl | hk)
      · exact h rfl
      · exact ih hk

theorem lookupTU_erase_self (m : TranslationUnits) (k : String) :
    lookupTU (eraseTU m k) k = none :=
  (lookupTU_eq_none_iff _ _).mpr (not_mem_keysOf_erase m k)

theorem keysOf_update (m : TranslationUnits) (k : String) (v : StoredTranslationUnit) :
    keysOf (updateTU m k v) = keysOf m := by
  induction m with
  | nil => rfl
  | cons p rest ih =>
    by_cases h : p.1 = k
    · rw [updateTU, if_pos h]; simp [h]
    · rw [updateTU, if_neg h]; simp [ih]

theorem handlesOf_update (m : TranslationUnits) (k : String)
    (stored v : StoredTranslationUnit) (hl : lookupTU m k = some stored)
    (hv : v.tu = stored.tu) :
    handlesOf (updateTU m k v) = handlesOf m := by
  induction m with
  | nil => simp [lookupTU] at hl
  | cons p rest ih =>
    by_cases h : p.1 = k
    · rw [lookupTU, if_pos h] at hl
      rw [updateTU, if_pos h]
      simp [hv, Option.some.inj hl]
    · rw [lookupTU, if_neg h] at hl
      rw [updateTU, if_neg h]
      simp [ih hl]

theorem lookupTU_update_self (m : TranslationUnits) (k : String)
    (stored v : StoredTranslationUnit) (hl : lookupTU m k = some stored) :
    lookupTU (updateTU m k v) k = some v := by
  induction m with
  | nil => simp [lookupTU] at hl
  | cons p rest ih =>
    by_cases h : p.1 = k
    · rw [updateTU, if_pos h, lookupTU, if_pos rfl]
    · rw [lookupTU, if_neg h] at hl
      rw [updateTU, if_neg h, lookupTU, if_neg h]
      exact ih hl

theorem insertTU_of_not_mem (m : TranslationUnits) (k : String)
    (v : StoredTranslationUnit) (h : k ∉ keysOf m) :
    insertTU m k v = m ++ [(k, v)] := by
  induction m with
  | nil => rfl
  | cons p rest ih =>
    simp only [keysOf_cons, List.mem_cons] at h
    push_neg at h
    rw [insertTU, if_neg (fun hp => h.1 hp.symm)]
    simp [ih h.2]

theorem lookupTU_insert_self (m : TranslationUnits) (k : String)
    (v : StoredTranslationUnit) :
    lookupTU (insertTU m k v) k = some v := by
  induction m with
  | nil => simp [insertTU, lookupTU]
  | cons p rest ih =>
    by_cases h : p.1 = k
    · rw [insertTU, if_pos h, lookupTU, if_pos rfl]
    · rw [insertTU, if_neg h, lookupTU, if_neg h]
      exact ih

theorem removeTU_found (st : SourceIndex) (f : String)
    (stored : StoredTranslationUnit)
    (hl : lookupTU st.translationUnits f = some stored) :
    removeTranslationUnit st f =
      ({ st with translationUnits := eraseTU st.translationUnits f },
       [ClangEvent.evDispose stored.tu]) := by
  unfold removeTranslationUnit
  rw [hl]

theorem removeTU_not_found (st : SourceIndex) (f : String)
    (hl : lookupTU st.translationUnits f = none) :
    removeTranslationUnit st f = (st, []) := by
  unfold removeTranslationUnit
  rw [hl]

theorem removeTU_nextHandle (st : SourceIndex) (f : String) :
    (removeTranslationUnit st f).1.nextHandle = st.nextHandle := by
  unfold removeTranslationUnit
  cases lookupTU st.translationUnits f <;> rfl

theorem removeTU_verbose (st : SourceIndex) (f : String) :
    (removeTranslationUnit st f).1.verbose = st.verbose := by
  unfold removeTranslationUnit
  cases lookupTU st.translationUnits f <;> rfl

theorem lookupTU_removeTU_self (st : SourceIndex) (f : String) :
    lookupTU (removeTranslationUnit st f).1.translationUnits f = none := by
  unfold removeTranslationUnit
  cases hl : lookupTU st.translationUnits f with
  | some stored => exact lookupTU_erase_self _ _
  | none => exact hl

theorem not_mem_keysOf_removeTU (st : SourceIndex) (f : String) :
    f ∉ keysOf (removeTranslationUnit st f).1.translationUnits := by
  rw [← lookupTU_eq_none_iff]
  exact lookupTU_removeTU_self st f

theorem gtuBody_found (st : SourceIndex) (env : CallEnv) (f : String)
    (aR : Bool) (args : List String) (stored : StoredTranslationUnit)
    (hl : lookupTU st.translationUnits f = some stored) :
    gtuBody st env f aR args = gtuStored st env f aR args stored := by
  unfold gtuBody
  rw [hl]

theorem gtuBody_not_found (st : SourceIndex) (env : CallEnv) (f : String)
    (aR : Bool) (args : List String)
    (hl : lookupTU st.translationUnits f = none) :
    gtuBody st env f aR args =
      fullRebuild st env f args (lastWriteTimeOf env.fsTime) := by
  unfold gtuBody
  rw [hl]

theorem getTU_no_provider (st : SourceIndex) (env : CallEnv) (f : String)
    (aR : Bool) (hp : env.providerArgs = none) :
    getTranslationUnit st env f aR = gtuBody st env f aR [] := by
  unfold getTranslationUnit
  rw [hp]

theorem getTU_empty_args (st : SourceIndex) (env : CallEnv) (f : String)
    (aR : Bool) (hp : env.providerArgs = some []) :
    getTranslationUnit st env f aR = { result := none, state := st, events := [] } := by
  unfold getTranslationUnit
  rw [hp]
  exact if_pos rfl

theorem getTU_args (st : SourceIndex) (env : CallEnv) (f : String) (aR : Bool)
    (args : List String) (hp : env.providerArgs = some args) (hne : args ≠ []) :
    getTranslationUnit st env f aR = gtuBody st env f aR args := by
  unfold getTranslationUnit
  rw [hp]
  exact if_neg hne

theorem fullRebuild_parse_ok (st : SourceIndex) (env : CallEnv) (f : String)
    (args0 : List String) (t : Int) (hp : env.parseOk = true) :
    fullRebuild st env f args0 t =
      { result := some (removeTranslationUnit st f).1.nextHandle
        state := { (removeTranslationUnit st f).1 with
                   translationUnits :=
                     insertTU (removeTranslationUnit st f).1.translationUnits f
                       ⟨(if (removeTranslationUnit st f).1.verbose ≥ 2 then
                           args0 ++ ["-v"] else args0), t,
                        (removeTranslationUnit st f).1.nextHandle⟩
                   nextHandle := (removeTranslationUnit st f).1.nextHandle + 1 }
        events := (removeTranslationUnit st f).2 ++ [ClangEvent.evParse] } := by
  unfold fullRebuild
  simp only [hp, if_true]

theorem fullRebuild_parse_fail (st : SourceIndex) (env : CallEnv) (f : String)
    (args0 : List String) (t : Int) (hp : env.parseOk = false) :
    fullRebuild st env f args0 t =
      { result := none
        state := (removeTranslationUnit st f).1
        events := (removeTranslationUnit st f).2 ++
          [ClangEvent.evParse,
           ClangEvent.evLogError ("Error parsing translation unit " ++ f)] } := by
  unfold fullRebuild
  simp only [hp, Bool.false_eq_true, if_false]

theorem keysOf_append (a b : TranslationUnits) :
    keysOf (a ++ b) = keysOf a ++ keysOf b := List.map_append _ _ _

theorem handlesOf_append (a b : TranslationUnits) :
    handlesOf (a ++ b) = handlesOf a ++ handlesOf b := List.map_append _ _ _

theorem inv_create (v : Int) : Inv (SourceIndex.create v) := by
  refine ⟨List.nodup_nil, List.nodup_nil, ?_⟩
  intro u hu
  simp [SourceIndex.create] at hu

theorem inv_removeTU (st : SourceIndex) (f : String) (h : Inv st) :
    Inv (removeTranslationUnit st f).1 := by
  obtain ⟨h1, h2, h3⟩ := h
  unfold removeTranslationUnit
  cases hl : lookupTU st.translationUnits f with
  | none => exact ⟨h1, h2, h3⟩
  | some stored =>
    refine ⟨(keysOf_erase_sublist _ _).nodup h1,
            (handlesOf_erase_sublist _ _).nodup h2, ?_⟩
    intro u hu
    exact h3 u ((handlesOf_erase_sublist _ _).subset hu)

theorem inv_fullRebuild (st : SourceIndex) (env : CallEnv) (f : String)
    (args0 : List String) (t : Int) (h : Inv st) :
    Inv (fullRebuild st env f args0 t).state := by
  obtain ⟨h1, h2, h3⟩ := inv_removeTU st f h
  have hfk : f ∉ keysOf (removeTranslationUnit st f).1.translationUnits :=
    not_mem_keysOf_removeTU st f
  unfold fullRebuild
  cases hp : env.parseOk with
  | false =>
    simp only [hp, Bool.false_eq_true, if_false]
    exact ⟨h1, h2, h3⟩
  | true =>
    simp only [hp, if_true]
    rw [insertTU_of_not_mem _ _ _ hfk]
    refine ⟨?_, ?_, ?_⟩
    · rw [keysOf_append, List.nodup_append]
      refine ⟨h1, List.nodup_singleton f, ?_⟩
      intro x hx hx1
      simp only [keysOf_cons, keysOf_nil, List.mem_singleton] at hx1
      exact hfk (hx1 ▸ hx)
    · rw [handlesOf_append, List.nodup_append]
      refine ⟨h2, List.nodup_singleton _, ?_⟩
      intro x hx hx1
      simp only [handlesOf_cons, handlesOf_nil, List.mem_singleton] at hx1
      exact absurd (h3 x hx) (by rw [hx1]; exact lt_irrefl _)
    · intro u hu
      rw [handlesOf_append] at hu
      rcases List.mem_append.mp hu with hu | hu
      · exact Nat.lt_succ_of_lt (h3 u hu)
      · simp only [handlesOf_cons, handlesOf_nil, List.mem_singleton] at hu
        rw [hu]
        exact Nat.lt_succ_self _

theorem inv_gtuStored (st : SourceIndex) (env : CallEnv) (f : String)
    (aR : Bool) (args : List String) (stored : StoredTranslationUnit)
    (hl : lookupTU st.translationUnits f = some stored) (h : Inv st) :
    Inv (gtuStored st env f aR args stored).state := by
  unfold gtuStored
  by_cases hc1 : aR = false ∧ args = stored.compileArgs ∧
      lastWriteTimeOf env.fsTime = stored.lastWriteTime
  · rw [if_pos hc1]
    exact h
  · rw [if_neg hc1]
    by_cases hc2 : args = stored.compileArgs
    · rw [if_pos hc2]
      cases hrp : env.reparseOk with
      | true =>
        simp only [hrp, if_true]
        obtain ⟨h1, h2, h3⟩ := h
        refine ⟨?_, ?_, ?_⟩
        · rw [keysOf_update]
          exact h1
        · rw [handlesOf_update st.translationUnits f stored
                { stored with lastWriteTime := lastWriteTimeOf env.fsTime } hl rfl]
          exact h2
        · intro u hu
          rw [handlesOf_update st.translationUnits f stored
                { stored with lastWriteTime := lastWriteTimeOf env.fsTime } hl rfl] at hu
          exact h3 u hu
      | false =>
        simp only [hrp, Bool.false_eq_true, if_false]
        exact inv_fullRebuild st env f args _ h
    · rw [if_neg hc2]
      exact inv_fullRebuild st env f args _ h

theorem inv_gtuBody (st : SourceIndex) (env : CallEnv) (f : String)
    (aR : Bool) (args : List String) (h : Inv st) :
    Inv (gtuBody st env f aR args).state := by
  cases hl : lookupTU st.translationUnits f with
  | none =>
    rw [gtuBody_not_found st env f aR args hl]
    exact inv_fullRebuild st env f args _ h
  | some stored =>
    rw [gtuBody_found st env f aR args stored hl]
    exact inv_gtuStored st env f aR args stored hl h

theorem inv_getTU (st : SourceIndex) (env : CallEnv) (f : String) (aR : Bool)
    (h : Inv st) : Inv (getTranslationUnit st env f aR).state := by
  cases hpa : env.providerArgs with
  | none =>
    rw [getTU_no_provider st env f aR hpa]
    exact inv_gtuBody st env f aR [] h
  | some args =>
    by_cases ha : args = []
    · rw [ha] at hpa
      rw [getTU_empty_args st env f aR hpa]
      exact h
    · rw [getTU_args st env f aR args hpa ha]
      exact inv_gtuBody st env f aR args h

theorem applyOp_gtu (st : SourceIndex) (env : CallEnv) (f : String) (aR : Bool) :
    applyOp st (CacheOp.gtu env f aR) =
      ((getTranslationUnit st env f aR).state,
       (getTranslationUnit st env f aR).events) := rfl

theorem applyOp_prime_none (st : SourceIndex) (env : CallEnv) (f : String)
    (hl : lookupTU st.translationUnits f = none) :
    applyOp st (CacheOp.prime env f) =
      ((getTranslationUnit st env f false).state,
       (getTranslationUnit st env f false).events) := by
  have he : applyOp st (CacheOp.prime env f) =
      (match lookupTU st.translationUnits f with
       | none => ((getTranslationUnit st env f false).state,
                  (getTranslationUnit st env f false).events)
       | some _ => (st, [])) := rfl
  rw [he, hl]

theorem applyOp_prime_some (st : SourceIndex) (env : CallEnv) (f : String)
    (stored : StoredTranslationUnit)
    (hl : lookupTU st.translationUnits f = some stored) :
    applyOp st (CacheOp.prime env f) = (st, []) := by
  have he : applyOp st (CacheOp.prime env f) =
      (match lookupTU st.translationUnits f with
       | none => ((getTranslationUnit st env f false).state,
                  (getTranslationUnit st env f false).events)
       | some _ => (st, [])) := rfl
  rw [he, hl]

theorem applyOp_reprime_none (st : SourceIndex) (env : CallEnv) (f : String)
    (hl : lookupTU st.translationUnits f = none) :
    applyOp st (CacheOp.reprime env f) = (st, []) := by
  have he : applyOp st (CacheOp.reprime env f) =
      (match lookupTU st.translationUnits f with
       | some _ => ((getTranslationUnit st env f false).state,
                    (getTranslationUnit st env f false).events)
       | none => (st, [])) := rfl
  rw [he, hl]

theorem applyOp_reprime_some (st : SourceIndex) (env : CallEnv) (f : String)
    (stored : StoredTranslationUnit)
    (hl : lookupTU st.translationUnits f = some stored) :
    applyOp st (CacheOp.reprime env f) =
      ((getTranslationUnit st env f false).state,
       (getTranslationUnit st env f false).events) := by
  have he : applyOp st (CacheOp.reprime env f) =
      (match lookupTU st.translationUnits f with
       | some _ => ((getTranslationUnit st env f false).state,
                    (getTranslationUnit st env f false).events)
       | none => (st, [])) := rfl
  rw [he, hl]

theorem inv_applyOp (st : SourceIndex) (op : CacheOp) (h : Inv st) :
    Inv (applyOp st op).1 := by
  cases op with
  | gtu env f aR => exact inv_getTU st env f aR h
  | remove f => exact inv_removeTU st f h
  | removeAll =>
    have hra : applyOp st CacheOp.removeAll = removeAllTranslationUnits st := rfl
    rw [hra]
    refine ⟨List.nodup_nil, List.nodup_nil, ?_⟩
    intro u hu
    simp [removeAllTranslationUnits, handlesOf] at hu
  | prime env f =>
    cases hl : lookupTU st.translationUnits f with
    | none =>
      rw [applyOp_prime_none st env f hl]
      exact inv_getTU st env f false h
    | some stored =>
      rw [applyOp_prime_some st env f stored hl]
      exact h
  | reprime env f =>
    cases hl : lookupTU st.translationUnits f with
    | none =>
      rw [applyOp_reprime_none st env f hl]
      exact h
    | some stored =>
      rw [applyOp_reprime_some st env f stored hl]
      exact inv_getTU st env f false h

theorem inv_runOps (st : SourceIndex) (ops : List CacheOp) (h : Inv st) :
    Inv (runOps st ops).1 := by
  induction ops generalizing st with
  | nil => exact h
  | cons op rest ih => exact ih _ (inv_applyOp st op h)

theorem runOps_cons (st : SourceIndex) (op : CacheOp) (ops : List CacheOp) :
    runOps st (op :: ops) =
      ((runOps (applyOp st op).1 ops).1,
       (applyOp st op).2 ++ (runOps (applyOp st op).1 ops).2) := rfl

theorem runOps_append (st : SourceIndex) (xs ys : List CacheOp) :
    runOps st (xs ++ ys) =
      ((runOps (runOps st xs).1 ys).1,
       (runOps st xs).2 ++ (runOps (runOps st xs).1 ys).2) := by
  induction xs generalizing st with
  | nil => simp [runOps]
  | cons op rest ih =>
    rw [List.cons_append, runOps_cons, ih, runOps_cons]
    simp [List.append_assoc]

theorem disposeCount_append (a b : List ClangEvent) :
    disposeCount (a ++ b) = disposeCount a + disposeCount b := by
  simp [disposeCount, List.filter_append]

/-- The expected index state after `k` calls of the rebuild scenario: after
the `k`-th call exactly one record remains, built from the `k`-th argument
list, holding the `k`-th issued handle. -/
def midState (f : String) : Nat → SourceIndex
  | 0 => SourceIndex.create 0
  | Nat.succ k =>
      { translationUnits := [(f, ⟨List.replicate (k + 1) "a", 0, k⟩)]
        verbose := 0
        nextHandle := k + 1 }

theorem rebuild_step_zero (f : String) :
    applyOp (midState f 0) (CacheOp.gtu (rebuildEnv 0) f false) =
      (midState f 1, [ClangEvent.evParse]) := by
  rw [applyOp_gtu,
      getTU_args _ _ _ _ (List.replicate 1 "a") rfl (by simp),
      gtuBody_not_found _ _ _ _ _ (by simp [midState, SourceIndex.create, lookupTU]),
      fullRebuild_parse_ok _ _ _ _ _ rfl,
      removeTU_not_found _ _ (by simp [midState, SourceIndex.create, lookupTU])]
  simp [midState, SourceIndex.create, insertTU, lastWriteTimeOf, rebuildEnv]

theorem rebuild_step_succ (f : String) (k : Nat) :
    applyOp (midState f (k + 1)) (CacheOp.gtu (rebuildEnv (k + 1)) f false) =
      (midState f (k + 2), [ClangEvent.evDispose k, ClangEvent.evParse]) := by
  have hne : List.replicate (k + 2) "a" ≠ List.replicate (k + 1) "a" := by
    intro h
    have h2 := List.replicate_left_inj.mp h
    omega
  have hl : lookupTU (midState f (k + 1)).translationUnits f =
      some ⟨List.replicate (k + 1) "a", 0, k⟩ := by
    simp [midState, lookupTU]
  rw [applyOp_gtu,
      getTU_args _ _ _ _ (List.replicate (k + 2) "a") rfl (by simp),
      gtuBody_found _ _ _ _ _ _ hl]
  unfold gtuStored
  rw [if_neg (by
        rintro ⟨-, h2, -⟩
        exact hne h2),
      if_neg (by
        intro h2
        exact hne h2),
      fullRebuild_parse_ok _ _ _ _ _ rfl,
      removeTU_found _ _ _ hl]
  simp [midState, eraseTU, insertTU, lastWriteTimeOf, rebuildEnv]

theorem run_rebuild_calls (f : String) (k : Nat) :
    runOps (SourceIndex.create 0)
        ((List.range k).map (fun i => CacheOp.gtu (rebuildEnv i) f false)) =
      (midState f k,
       (List.range k).flatMap (fun i =>
         if i = 0 then [ClangEvent.evParse]
         else [ClangEvent.evDispose (i - 1), ClangEvent.evParse])) := by
  induction k with
  | zero => rfl
  | succ k ih =>
    rw [List.range_succ, List.map_append, runOps_append, ih]
    cases k with
    | zero =>
      simp [runOps, rebuild_step_zero]
    | succ j =>
      simp [runOps, rebuild_step_succ, List.range_succ]

theorem disposeCount_rebuild_trace (k : Nat) :
    disposeCount ((List.range k).flatMap (fun i =>
        if i = 0 then [ClangEvent.evParse]
        else [ClangEvent.evDispose (i - 1), ClangEvent.evParse])) = k - 1 := by
  induction k with
  | zero => rfl
  | succ k ih =>
    rw [List.range_succ, List.flatMap_append, disposeCount_append, ih]
    cases k with
    | zero => simp [disposeCount]
    | succ j => simp [disposeCount]

/-- Claim C9: when the argument provider answers with an empty argument
list, `getTranslationUnit` returns the empty unit immediately, makes no
parse, reparse, or dispose call, and leaves the whole cache state (hence any
existing record for the path) untouched, regardless of `forceReparse`,
mtime, or prior record state. -/
theorem c9_unindexable_short_circuit (st : SourceIndex) (env : CallEnv)
    (f : String) (aR : Bool) (hp : env.providerArgs = some []) :
    getTranslationUnit st env f aR =
      { result := none, state := st, events := [] } :=
  getTU_empty_args st env f aR hp

/-- Witness for C9 at a concrete input: a force-reparse call on a path with
an existing record and an empty provider answer returns empty with no events
and an unchanged state. -/
theorem c9_witness :
    (⟨some [], some 9, true, true⟩ : CallEnv).providerArgs = some [] ∧
    getTranslationUnit ⟨[("w9.cpp", ⟨["-x"], 9, 0⟩)], 0, 1⟩
        ⟨some [], some 9, true, true⟩ "w9.cpp" true =
      { result := none
        state := ⟨[("w9.cpp", ⟨["-x"], 9, 0⟩)], 0, 1⟩
        events := [] } :=
  ⟨rfl, c9_unindexable_short_circuit ⟨[("w9.cpp", ⟨["-x"], 9, 0⟩)], 0, 1⟩
      ⟨some [], some 9, true, true⟩ "w9.cpp" true rfl⟩

/-- Claim C10: with an existing record, identical fresh args and identical
mtime, calling with `forceReparse = true` still issues a reparse call on the
stored unit (the first event of the call is the reparse), instead of
returning the cached unit as a pure hit. -/
theorem c10_force_overrides_freshness (st : SourceIndex) (env : CallEnv)
    (f : String) (args : List String) (stored : StoredTranslationUnit)
    (hl : lookupTU st.translationUnits f = some stored)
    (hp : env.providerArgs = some args) (hne : args ≠ [])
    (ha : args = stored.compileArgs)
    (_ht : lastWriteTimeOf env.fsTime = stored.lastWriteTime) :
    (getTranslationUnit st env f true).events.head? =
      some (ClangEvent.evReparse stored.tu) := by
  rw [getTU_args st env f true args hp hne,
      gtuBody_found st env f true args stored hl]
  unfold gtuStored
  rw [if_neg (by
        rintro ⟨h1, -, -⟩
        exact absurd h1 (by decide)),
      if_pos ha]
  cases hrp : env.reparseOk with
  | true => simp [hrp]
  | false =>
    simp only [hrp, Bool.false_eq_true, if_false]
    rfl

/-- Witness for C10 at a concrete input: identical args and mtime with the
force flag set still triggers the reparse call. -/
theorem c10_witness :
    (getTranslationUnit ⟨[("w10.cpp", ⟨["-x"], 7, 4⟩)], 0, 5⟩
        ⟨some ["-x"], some 7, true, true⟩ "w10.cpp" true).events.head? =
      some (ClangEvent.evReparse 4) :=
  c10_force_overrides_freshness ⟨[("w10.cpp", ⟨["-x"], 7, 4⟩)], 0, 5⟩
    ⟨some ["-x"], some 7, true, true⟩ "w10.cpp" ["-x"] ⟨["-x"], 7, 4⟩
    (by decide) rfl (by decide) rfl rfl

/-- Claim C4: with an existing record, `forceReparse = false`, fresh args
equal to the stored args and mtime equal to the stored time, the call is a
pure cache hit: it returns a handle wrapping the stored unit, changes no
state, and makes no libclang call; consequently a second identical call also
makes no libclang call, so two consecutive such calls make at most one
analyzer call in total (in fact zero). -/
theorem c4_cache_hit_no_analyzer_call (st : SourceIndex) (env : CallEnv)
    (f : String) (args : List String) (stored : StoredTranslationUnit)
    (hl : lookupTU st.translationUnits f = some stored)
    (hp : env.providerArgs = some args) (hne : args ≠ [])
    (ha : args = stored.compileArgs)
    (ht : lastWriteTimeOf env.fsTime = stored.lastWriteTime) :
    getTranslationUnit st env f false =
      { result := some stored.tu, state := st, events := [] } ∧
    (getTranslationUnit (getTranslationUnit st env f false).state
        env f false).events = [] ∧
    (getTranslationUnit st env f false).events.length +
      (getTranslationUnit (getTranslationUnit st env f false).state
          env f false).events.length ≤ 1 := by
  have h1 : getTranslationUnit st env f false =
      { result := some stored.tu, state := st, events := [] } := by
    rw [getTU_args st env f false args hp hne,
        gtuBody_found st env f false args stored hl]
    unfold gtuStored
    rw [if_pos ⟨rfl, ha, ht⟩]
  refine ⟨h1, ?_, ?_⟩
  · simp [h1]
  · simp [h1]

/-- Witness for C4 at a concrete input: two consecutive hit-eligible calls
return the cached unit with empty event traces. -/
theorem c4_witness :
    getTranslationUnit ⟨[("w4.cpp", ⟨["-O2"], 11, 2⟩)], 0, 3⟩
        ⟨some ["-O2"], some 11, true, true⟩ "w4.cpp" false =
      { result := some 2
        state := ⟨[("w4.cpp", ⟨["-O2"], 11, 2⟩)], 0, 3⟩
        events := [] } ∧
    (getTranslationUnit (getTranslationUnit ⟨[("w4.cpp", ⟨["-O2"], 11, 2⟩)], 0, 3⟩
        ⟨some ["-O2"], some 11, true, true⟩ "w4.cpp" false).state
        ⟨some ["-O2"], some 11, true, true⟩ "w4.cpp" false).events = [] ∧
    (getTranslationUnit ⟨[("w4.cpp", ⟨["-O2"], 11, 2⟩)], 0, 3⟩
        ⟨some ["-O2"], some 11, true, true⟩ "w4.cpp" false).events.length +
      (getTranslationUnit (getTranslationUnit ⟨[("w4.cpp", ⟨["-O2"], 11, 2⟩)], 0, 3⟩
          ⟨some ["-O2"], some 11, true, true⟩ "w4.cpp" false).state
          ⟨some ["-O2"], some 11, true, true⟩ "w4.cpp" false).events.length ≤ 1 :=
  c4_cache_hit_no_analyzer_call ⟨[("w4.cpp", ⟨["-O2"], 11, 2⟩)], 0, 3⟩
    ⟨some ["-O2"], some 11, true, true⟩ "w4.cpp" ["-O2"] ⟨["-O2"], 11, 2⟩
    (by decide) rfl (by decide) rfl rfl

/-- Claim C5: with an existing record whose stored args differ from the
fresh args, the call never reparses: its trace is exactly a dispose of the
old unit followed by a parse (plus the error log when the parse fails), even
when the mtime is unchanged and whatever the force flag is. -/
theorem c5_arg_change_forces_rebuild (st : SourceIndex) (env : CallEnv)
    (f : String) (aR : Bool) (args : List String)
    (stored : StoredTranslationUnit)
    (hl : lookupTU st.translationUnits f = some stored)
    (hp : env.providerArgs = some args) (hne : args ≠ [])
    (ha : args ≠ stored.compileArgs) :
    (getTranslationUnit st env f aR).events =
      ClangEvent.evDispose stored.tu :: ClangEvent.evParse ::
        (if env.parseOk then []
         else [ClangEvent.evLogError ("Error parsing translation unit " ++ f)]) ∧
    (∀ t, ClangEvent.evReparse t ∉ (getTranslationUnit st env f aR).events) := by
  rw [getTU_args st env f aR args hp hne,
      gtuBody_found st env f aR args stored hl]
  unfold gtuStored
  rw [if_neg (by
        rintro ⟨-, h2, -⟩
        exact ha h2),
      if_neg ha]
  cases hpk : env.parseOk with
  | true =>
    rw [fullRebuild_parse_ok st env f args (lastWriteTimeOf env.fsTime) hpk,
        removeTU_found st f stored hl]
    simp [hpk]
  | false =>
    rw [fullRebuild_parse_fail st env f args (lastWriteTimeOf env.fsTime) hpk,
        removeTU_found st f stored hl]
    simp [hpk]

/-- Witness for C5 at a concrete input: an argument change with unchanged
mtime disposes the old unit and parses from scratch, with no reparse. -/
theorem c5_witness :
    (getTranslationUnit ⟨[("w5.cpp", ⟨["-x"], 5, 0⟩)], 0, 1⟩
        ⟨some ["-y"], some 5, true, true⟩ "w5.cpp" false).events =
      ClangEvent.evDispose 0 :: ClangEvent.evParse ::
        (if (⟨some ["-y"], some 5, true, true⟩ : CallEnv).parseOk then []
         else [ClangEvent.evLogError ("Error parsing translation unit " ++ "w5.cpp")]) ∧
    (∀ t, ClangEvent.evReparse t ∉
      (getTranslationUnit ⟨[("w5.cpp", ⟨["-x"], 5, 0⟩)], 0, 1⟩
          ⟨some ["-y"], some 5, true, true⟩ "w5.cpp" false).events) :=
  c5_arg_change_forces_rebuild ⟨[("w5.cpp", ⟨["-x"], 5, 0⟩)], 0, 1⟩
    ⟨some ["-y"], some 5, true, true⟩ "w5.cpp" false ["-y"] ⟨["-x"], 5, 0⟩
    (by decide) rfl (by decide) (by decide)

theorem args_ne_args_append_v (args : List String) :
    args ≠ args ++ ["-v"] := by
  intro h
  have h2 := congrArg List.length h
  simp at h2

/-- Claim C3 (implicit): with `verbose_ ≥ 2` the `-v` flag is appended only
after the hit/reparse comparison and the extended list is stored as the
record's `compileArgs`; hence (a) a record installed by a successful rebuild
stores `args ++ ["-v"]`, and (b) any later call whose provider returns the
same `args` (any mtime, any force flag) finds `stored.compileArgs = args ++
["-v"] ≠ args`, so it can never hit or reparse: it disposes the old unit and
fully rebuilds, reinstalling `args ++ ["-v"]` — every such call is a full
rebuild. -/
theorem c3_verbose_rebuild_every_time (st : SourceIndex) (env : CallEnv)
    (f : String) (aR : Bool) (args : List String)
    (hv : st.verbose ≥ 2) (hp : env.providerArgs = some args)
    (hne : args ≠ []) (hpk : env.parseOk = true) :
    (lookupTU st.translationUnits f = none →
       lookupTU (getTranslationUnit st env f aR).state.translationUnits f =
         some ⟨args ++ ["-v"], lastWriteTimeOf env.fsTime, st.nextHandle⟩) ∧
    (∀ stored, lookupTU st.translationUnits f = some stored →
       stored.compileArgs = args ++ ["-v"] →
         (getTranslationUnit st env f aR).events =
           [ClangEvent.evDispose stored.tu, ClangEvent.evParse] ∧
         lookupTU (getTranslationUnit st env f aR).state.translationUnits f =
           some ⟨args ++ ["-v"], lastWriteTimeOf env.fsTime, st.nextHandle⟩) := by
  constructor
  · intro hl
    rw [getTU_args st env f aR args hp hne,
        gtuBody_not_found st env f aR args hl,
        fullRebuild_parse_ok st env f args (lastWriteTimeOf env.fsTime) hpk,
        removeTU_not_found st f hl]
    simp only [if_pos hv]
    exact lookupTU_insert_self _ _ _
  · intro stored hl hs
    have hargne : args ≠ stored.compileArgs := by
      rw [hs]
      exact args_ne_args_append_v args
    rw [getTU_args st env f aR args hp hne,
        gtuBody_found st env f aR args stored hl]
    unfold gtuStored
    rw [if_neg (by
          rintro ⟨-, h2, -⟩
          exact hargne h2),
        if_neg hargne,
        fullRebuild_parse_ok st env f args (lastWriteTimeOf env.fsTime) hpk,
        removeTU_found st f stored hl]
    constructor
    · rfl
    · simp only [if_pos hv]
      exact lookupTU_insert_self _ _ _

/-- Witness for C3 at a concrete input: with verbosity 2, a record storing
`["-x", "-v"]` and a provider answering `["-x"]`, the call rebuilds
(dispose then parse) and reinstalls `["-x", "-v"]` — the rebuild repeats on
every such call. -/
theorem c3_witness :
    (getTranslationUnit ⟨[("w3.cpp", ⟨["-x", "-v"], 5, 0⟩)], 2, 1⟩
        ⟨some ["-x"], some 5, true, true⟩ "w3.cpp" false).events =
      [ClangEvent.evDispose 0, ClangEvent.evParse] ∧
    lookupTU (getTranslationUnit ⟨[("w3.cpp", ⟨["-x", "-v"], 5, 0⟩)], 2, 1⟩
        ⟨some ["-x"], some 5, true, true⟩ "w3.cpp" false).state.translationUnits
      "w3.cpp" = some ⟨["-x"] ++ ["-v"], lastWriteTimeOf (some 5), 1⟩ :=
  (c3_verbose_rebuild_every_time ⟨[("w3.cpp", ⟨["-x", "-v"], 5, 0⟩)], 2, 1⟩
      ⟨some ["-x"], some 5, true, true⟩ "w3.cpp" false ["-x"]
      (by decide) rfl (by decide) rfl).2
    ⟨["-x", "-v"], 5, 0⟩ (by decide) (by decide)

/-- Claim C7: (1) from any freshly created index, every sequence of cache
operations preserves the structural invariant — at most one record per path,
pairwise-distinct live unit handles (hence at most one live unit per path),
and only allocator-issued handles; (2) `N` consecutive argument-change
rebuilds of one path followed by the final cleanup perform exactly `N`
dispose calls. -/
theorem c7_unique_records_and_dispose_count :
    (∀ (v : Int) (ops : List CacheOp),
       Inv (runOps (SourceIndex.create v) ops).1) ∧
    (∀ (f : String) (N : Nat),
       disposeCount (runOps (SourceIndex.create 0) (rebuildOps f N)).2 = N) := by
  constructor
  · intro v ops
    exact inv_runOps _ _ (inv_create v)
  · intro f N
    rw [rebuildOps, runOps_append, run_rebuild_calls]
    cases N with
    | zero =>
      simp [runOps, applyOp, removeAllTranslationUnits, midState,
            SourceIndex.create, disposeCount]
    | succ j =>
      rw [disposeCount_append, disposeCount_rebuild_trace]
      simp [runOps, applyOp, removeAllTranslationUnits, midState, disposeCount]

theorem fullRebuild_fail_spec (st : SourceIndex) (env : CallEnv) (f : String)
    (args : List String) (t : Int) (hpk : env.parseOk = false) :
    (fullRebuild st env f args t).result = none ∧
    lookupTU (fullRebuild st env f args t).state.translationUnits f = none ∧
    ClangEvent.evLogError ("Error parsing translation unit " ++ f) ∈
      (fullRebuild st env f args t).events ∧
    (∀ stored, lookupTU st.translationUnits f = some stored →
       ClangEvent.evDispose stored.tu ∈ (fullRebuild st env f args t).events) := by
  rw [fullRebuild_parse_fail st env f args t hpk]
  refine ⟨rfl, lookupTU_removeTU_self st f, by simp, ?_⟩
  intro stored hl
  rw [removeTU_found st f stored hl]
  simp

theorem gtuBody_parse_fail_spec (st : SourceIndex) (env : CallEnv)
    (f : String) (aR : Bool) (args : List String) (hpk : env.parseOk = false)
    (hreach : ClangEvent.evParse ∈ (gtuBody st env f aR args).events) :
    (gtuBody st env f aR args).result = none ∧
    lookupTU (gtuBody st env f aR args).state.translationUnits f = none ∧
    ClangEvent.evLogError ("Error parsing translation unit " ++ f) ∈
      (gtuBody st env f aR args).events ∧
    (∀ stored, lookupTU st.translationUnits f = some stored →
       ClangEvent.evDispose stored.tu ∈ (gtuBody st env f aR args).events) := by
  cases hl : lookupTU st.translationUnits f with
  | none =>
    rw [gtuBody_not_found st env f aR args hl]
    obtain ⟨g1, g2, g3, g4⟩ :=
      fullRebuild_fail_spec st env f args (lastWriteTimeOf env.fsTime) hpk
    exact ⟨g1, g2, g3, fun stored hls => by cases hls⟩
  | some stored =>
    rw [gtuBody_found st env f aR args stored hl] at hreach ⊢
    unfold gtuStored at hreach ⊢
    by_cases hc1 : aR = false ∧ args = stored.compileArgs ∧
        lastWriteTimeOf env.fsTime = stored.lastWriteTime
    · rw [if_pos hc1] at hreach
      simp at hreach
    · rw [if_neg hc1] at hreach ⊢
      by_cases hc2 : args = stored.compileArgs
      · rw [if_pos hc2] at hreach ⊢
        cases hrp : env.reparseOk with
        | true =>
          rw [hrp] at hreach
          simp at hreach
        | false =>
          rw [hrp] at hreach
          simp only [Bool.false_eq_true, if_false] at hreach ⊢
          obtain ⟨g1, g2, g3, g4⟩ :=
            fullRebuild_fail_spec st env f args (lastWriteTimeOf env.fsTime) hpk
          refine ⟨g1, g2, ?_, ?_⟩
          · exact List.mem_cons_of_mem _ (List.mem_cons_of_mem _ g3)
          · intro stored2 hl2
            exact List.mem_cons_of_mem _
              (List.mem_cons_of_mem _ (g4 stored2 (hl.trans hl2)))
      · rw [if_neg hc2] at hreach ⊢
        obtain ⟨g1, g2, g3, g4⟩ :=
          fullRebuild_fail_spec st env f args (lastWriteTimeOf env.fsTime) hpk
        exact ⟨g1, g2, g3, fun s2 h2 => g4 s2 (hl.trans h2)⟩

/-- Claim C8: whenever the full-rebuild parse call is made and fails (the
analyzer returns null), `getTranslationUnit` returns empty, logs the parse
error, and installs no record — the path ends the call un-indexed — and any
prior record's unit was disposed during the call. -/
theorem c8_parse_failure_leaves_uncached (st : SourceIndex) (env : CallEnv)
    (f : String) (aR : Bool) (hpk : env.parseOk = false)
    (hreach : ClangEvent.evParse ∈ (getTranslationUnit st env f aR).events) :
    (getTranslationUnit st env f aR).result = none ∧
    lookupTU (getTranslationUnit st env f aR).state.translationUnits f = none ∧
    ClangEvent.evLogError ("Error parsing translation unit " ++ f) ∈
      (getTranslationUnit st env f aR).events ∧
    (∀ stored, lookupTU st.translationUnits f = some stored →
       ClangEvent.evDispose stored.tu ∈ (getTranslationUnit st env f aR).events) := by
  cases hpa : env.providerArgs with
  | none =>
    rw [getTU_no_provider st env f aR hpa] at hreach ⊢
    exact gtuBody_parse_fail_spec st env f aR [] hpk hreach
  | some args =>
    by_cases ha : args = []
    · rw [ha] at hpa
      rw [getTU_empty_args st env f aR hpa] at hreach
      simp at hreach
    · rw [getTU_args st env f aR args hpa ha] at hreach ⊢
      exact gtuBody_parse_fail_spec st env f aR args hpk hreach

/-- Witness for C8 at a concrete input: a parse failure on a path with a
prior record (stale args) leaves the path un-cached, returns empty, logs the
error, and has disposed the prior unit. -/
theorem c8_witness :
    (getTranslationUnit ⟨[("w8.cpp", ⟨["-x"], 5, 0⟩)], 0, 1⟩
        ⟨some ["-y"], some 5, true, false⟩ "w8.cpp" false).result = none ∧
    lookupTU (getTranslationUnit ⟨[("w8.cpp", ⟨["-x"], 5, 0⟩)], 0, 1⟩
        ⟨some ["-y"], some 5, true, false⟩ "w8.cpp" false).state.translationUnits
      "w8.cpp" = none ∧
    ClangEvent.evLogError ("Error parsing translation unit " ++ "w8.cpp") ∈
      (getTranslationUnit ⟨[("w8.cpp", ⟨["-x"], 5, 0⟩)], 0, 1⟩
          ⟨some ["-y"], some 5, true, false⟩ "w8.cpp" false).events ∧
    (∀ stored,
       lookupTU (⟨[("w8.cpp", ⟨["-x"], 5, 0⟩)], 0, 1⟩ : SourceIndex).translationUnits
           "w8.cpp" = some stored →
       ClangEvent.evDispose stored.tu ∈
         (getTranslationUnit ⟨[("w8.cpp", ⟨["-x"], 5, 0⟩)], 0, 1⟩
             ⟨some ["-y"], some 5, true, false⟩ "w8.cpp" false).events) :=
  c8_parse_failure_leaves_uncached ⟨[("w8.cpp", ⟨["-x"], 5, 0⟩)], 0, 1⟩
    ⟨some ["-y"], some 5, true, false⟩ "w8.cpp" false rfl (by decide)

/-- Counterexample to claim C1: with a cached record (args `["-x"]`, time 5,
unit 0), matching fresh args, a changed mtime and a failing reparse, the
call does NOT return empty and does NOT leave the record installed: it
disposes the old unit, calls parse, and returns the freshly parsed unit —
contradicting "reports an error and returns empty, and the existing
CacheRecord and its unit remain installed unchanged … never disposes the old
unit and never calls parse". -/
theorem c1_counterexample :
    (getTranslationUnit ⟨[("c1.cpp", ⟨["-x"], 5, 0⟩)], 0, 1⟩
        ⟨some ["-x"], some 6, false, true⟩ "c1.cpp" false).result ≠ none ∧
    ClangEvent.evDispose 0 ∈
      (getTranslationUnit ⟨[("c1.cpp", ⟨["-x"], 5, 0⟩)], 0, 1⟩
          ⟨some ["-x"], some 6, false, true⟩ "c1.cpp" false).events ∧
    ClangEvent.evParse ∈
      (getTranslationUnit ⟨[("c1.cpp", ⟨["-x"], 5, 0⟩)], 0, 1⟩
          ⟨some ["-x"], some 6, false, true⟩ "c1.cpp" false).events ∧
    lookupTU (getTranslationUnit ⟨[("c1.cpp", ⟨["-x"], 5, 0⟩)], 0, 1⟩
        ⟨some ["-x"], some 6, false, true⟩ "c1.cpp" false).state.translationUnits
      "c1.cpp" ≠ some ⟨["-x"], 5, 0⟩ := by
  decide

/-- Claim C1 as amended: when the reparse made for a hit-ineligible call with
matching args fails, `getTranslationUnit` logs the reparse error and falls
through to the full-rebuild tail: the old unit is disposed and its record
removed, then parse is attempted; on parse success the freshly parsed unit
is returned and installed under the fresh (possibly `-v`-extended) args, on
parse failure the call returns empty with the path left un-indexed.  The old
record never survives a failed reparse. -/
theorem c1_reparse_failure_falls_through (st : SourceIndex) (env : CallEnv)
    (f : String) (aR : Bool) (args : List String)
    (stored : StoredTranslationUnit)
    (hl : lookupTU st.translationUnits f = some stored)
    (hp : env.providerArgs = some args) (hne : args ≠ [])
    (ha : args = stored.compileArgs) (hrp : env.reparseOk = false)
    (hstale : aR = true ∨ lastWriteTimeOf env.fsTime ≠ stored.lastWriteTime) :
    (getTranslationUnit st env f aR).events =
      ClangEvent.evReparse stored.tu ::
      ClangEvent.evLogError ("Error re-parsing translation unit " ++ f) ::
      ClangEvent.evDispose stored.tu :: ClangEvent.evParse ::
      (if env.parseOk then []
       else [ClangEvent.evLogError ("Error parsing translation unit " ++ f)]) ∧
    (env.parseOk = true →
       (getTranslationUnit st env f aR).result = some st.nextHandle ∧
       lookupTU (getTranslationUnit st env f aR).state.translationUnits f =
         some ⟨(if st.verbose ≥ 2 then args ++ ["-v"] else args),
               lastWriteTimeOf env.fsTime, st.nextHandle⟩) ∧
    (env.parseOk = false →
       (getTranslationUnit st env f aR).result = none ∧
       lookupTU (getTranslationUnit st env f aR).state.translationUnits f =
         none) := by
  have hc1 : ¬(aR = false ∧ args = stored.compileArgs ∧
      lastWriteTimeOf env.fsTime = stored.lastWriteTime) := by
    rintro ⟨h1, -, h3⟩
    rcases hstale with h | h
    · rw [h] at h1
      cases h1
    · exact h h3
  rw [getTU_args st env f aR args hp hne,
      gtuBody_found st env f aR args stored hl]
  unfold gtuStored
  rw [if_neg hc1, if_pos ha, hrp]
  simp only [Bool.false_eq_true, if_false]
  cases hpk : env.parseOk with
  | true =>
    rw [fullRebuild_parse_ok st env f args (lastWriteTimeOf env.fsTime) hpk,
        removeTU_found st f stored hl]
    refine ⟨by simp, ?_, ?_⟩
    · intro _
      exact ⟨rfl, lookupTU_insert_self _ _ _⟩
    · intro h
      cases h
  | false =>
    rw [fullRebuild_parse_fail st env f args (lastWriteTimeOf env.fsTime) hpk,
        removeTU_found st f stored hl]
    refine ⟨by simp, ?_, ?_⟩
    · intro h
      cases h
    · intro _
      exact ⟨rfl, lookupTU_erase_self _ _⟩

/-- Witness for the amended C1 at a concrete input: a failed reparse on a
stale-mtime record logs, disposes unit 0, parses, returns the new unit 1,
and installs the fresh record. -/
theorem c1_witness :
    (getTranslationUnit ⟨[("v1.cpp", ⟨["-x"], 5, 0⟩)], 0, 1⟩
        ⟨some ["-x"], some 6, false, true⟩ "v1.cpp" false).events =
      ClangEvent.evReparse 0 ::
      ClangEvent.evLogError ("Error re-parsing translation unit " ++ "v1.cpp") ::
      ClangEvent.evDispose 0 :: ClangEvent.evParse ::
      (if (⟨some ["-x"], some 6, false, true⟩ : CallEnv).parseOk then []
       else [ClangEvent.evLogError ("Error parsing translation unit " ++ "v1.cpp")]) ∧
    ((⟨some ["-x"], some 6, false, true⟩ : CallEnv).parseOk = true →
       (getTranslationUnit ⟨[("v1.cpp", ⟨["-x"], 5, 0⟩)], 0, 1⟩
           ⟨some ["-x"], some 6, false, true⟩ "v1.cpp" false).result = some 1 ∧
       lookupTU (getTranslationUnit ⟨[("v1.cpp", ⟨["-x"], 5, 0⟩)], 0, 1⟩
           ⟨some ["-x"], some 6, false, true⟩ "v1.cpp" false).state.translationUnits
         "v1.cpp" =
         some ⟨(if (⟨[("v1.cpp", ⟨["-x"], 5, 0⟩)], 0, 1⟩ : SourceIndex).verbose ≥ 2
                  then ["-x"] ++ ["-v"] else ["-x"]),
               lastWriteTimeOf (some 6), 1⟩) ∧
    ((⟨some ["-x"], some 6, false, true⟩ : CallEnv).parseOk = false →
       (getTranslationUnit ⟨[("v1.cpp", ⟨["-x"], 5, 0⟩)], 0, 1⟩
           ⟨some ["-x"], some 6, false, true⟩ "v1.cpp" false).result = none ∧
       lookupTU (getTranslationUnit ⟨[("v1.cpp", ⟨["-x"], 5, 0⟩)], 0, 1⟩
           ⟨some ["-x"], some 6, false, true⟩ "v1.cpp" false).state.translationUnits
         "v1.cpp" = none) :=
  c1_reparse_failure_falls_through ⟨[("v1.cpp", ⟨["-x"], 5, 0⟩)], 0, 1⟩
    ⟨some ["-x"], some 6, false, true⟩ "v1.cpp" false ["-x"] ⟨["-x"], 5, 0⟩
    (by decide) rfl (by decide) (by decide) rfl (Or.inr (by decide))

/-- Counterexample to claim C2: with the file's last-modified time
unreadable (`fsTime = none`), an indexable path and no prior record, the
call does NOT report-and-return-empty: it proceeds, parses, returns the new
unit and installs a CacheRecord (with the sentinel time 0) — contradicting
"getTranslationUnit reports an error once, returns empty, and neither
creates nor alters nor disposes any CacheRecord for that path". -/
theorem c2_counterexample :
    (getTranslationUnit (SourceIndex.create 0)
        ⟨some ["-c"], none, true, true⟩ "c2.cpp" false).result ≠ none ∧
    lookupTU (getTranslationUnit (SourceIndex.create 0)
        ⟨some ["-c"], none, true, true⟩ "c2.cpp" false).state.translationUnits
      "c2.cpp" ≠ none := by
  decide

/-- Claim C2 as amended: an unreadable or missing file does not short-circuit
`getTranslationUnit`.  The file-system layer reports the stat failure and
yields the sentinel time 0, and the call then behaves exactly as it would
for a readable file whose mtime is 0 — it may hit, reparse, or rebuild and
install or alter records as usual. -/
theorem c2_unreadable_mtime_no_short_circuit (st : SourceIndex)
    (env : CallEnv) (f : String) (aR : Bool) (hf : env.fsTime = none) :
    getTranslationUnit st env f aR =
      getTranslationUnit st { env with fsTime := some 0 } f aR := by
  obtain ⟨pa, ft, rp, pk⟩ := env
  have hf2 : ft = none := hf
  subst hf2
  rfl

/-- Witness for the amended C2 at a concrete input: a call with an
unreadable mtime behaves identically to the same call with mtime 0. -/
theorem c2_witness :
    getTranslationUnit (SourceIndex.create 0)
        ⟨some ["-c"], none, true, true⟩ "v2.cpp" false =
      getTranslationUnit (SourceIndex.create 0)
        ⟨some ["-c"], some 0, true, true⟩ "v2.cpp" false :=
  c2_unreadable_mtime_no_short_circuit (SourceIndex.create 0)
    ⟨some ["-c"], none, true, true⟩ "v2.cpp" false rfl

/-- Counterexample to claim C6: with a cached record (args `["-a"]`, time 3,
unit 0), matching fresh args, changed mtime (4) and a failing reparse, the
call makes a dispose call and a parse call — contradicting "exactly one
reparse call and zero dispose and zero parse calls". -/
theorem c6_counterexample :
    ClangEvent.evDispose 0 ∈
      (getTranslationUnit ⟨[("c6.cpp", ⟨["-a"], 3, 0⟩)], 0, 1⟩
          ⟨some ["-a"], some 4, false, true⟩ "c6.cpp" false).events ∧
    ClangEvent.evParse ∈
      (getTranslationUnit ⟨[("c6.cpp", ⟨["-a"], 3, 0⟩)], 0, 1⟩
          ⟨some ["-a"], some 4, false, true⟩ "c6.cpp" false).events := by
  decide

/-- Claim C6 as amended: same args and changed mtime issue exactly one
reparse call; when that reparse succeeds there are zero dispose and zero
parse calls and the record's stored timestamp is updated in place to the new
mtime (same unit, same args); when it fails the call falls through to the
full-rebuild path (dispose and parse follow). -/
theorem c6_timestamp_change_reparse (st : SourceIndex) (env : CallEnv)
    (f : String) (args : List String) (stored : StoredTranslationUnit)
    (hl : lookupTU st.translationUnits f = some stored)
    (hp : env.providerArgs = some args) (hne : args ≠ [])
    (ha : args = stored.compileArgs)
    (ht : lastWriteTimeOf env.fsTime ≠ stored.lastWriteTime)
    (hrp : env.reparseOk = true) :
    getTranslationUnit st env f false =
      { result := some stored.tu
        state := { st with
                   translationUnits :=
                     updateTU st.translationUnits f
                       { stored with lastWriteTime := lastWriteTimeOf env.fsTime } }
        events := [ClangEvent.evReparse stored.tu] } ∧
    lookupTU (getTranslationUnit st env f false).state.translationUnits f =
      some { stored with lastWriteTime := lastWriteTimeOf env.fsTime } := by
  have h1 : getTranslationUnit st env f false =
      { result := some stored.tu
        state := { st with
                   translationUnits :=
                     updateTU st.translationUnits f
                       { stored with lastWriteTime := lastWriteTimeOf env.fsTime } }
        events := [ClangEvent.evReparse stored.tu] } := by
    rw [getTU_args st env f false args hp hne,
        gtuBody_found st env f false args stored hl]
    unfold gtuStored
    rw [if_neg (by
          rintro ⟨-, -, h3⟩
          exact ht h3),
        if_pos ha, hrp]
    simp
  refine ⟨h1, ?_⟩
  rw [h1]
  exact lookupTU_update_self st.translationUnits f stored _ hl

/-- Witness for the amended C6 at a concrete input: same args, mtime changed
from 3 to 4, successful reparse — one reparse event, timestamp updated in
place on the same unit. -/
theorem c6_witness :
    getTranslationUnit ⟨[("v6.cpp", ⟨["-a"], 3, 0⟩)], 0, 1⟩
        ⟨some ["-a"], some 4, true, true⟩ "v6.cpp" false =
      { result := some 0
        state := ⟨updateTU [("v6.cpp", ⟨["-a"], 3, 0⟩)] "v6.cpp"
                    ⟨["-a"], lastWriteTimeOf (some 4), 0⟩, 0, 1⟩
        events := [ClangEvent.evReparse 0] } ∧
    lookupTU (getTranslationUnit ⟨[("v6.cpp", ⟨["-a"], 3, 0⟩)], 0, 1⟩
        ⟨some ["-a"], some 4, true, true⟩ "v6.cpp" false).state.translationUnits
      "v6.cpp" = some ⟨["-a"], lastWriteTimeOf (some 4), 0⟩ :=
  c6_timestamp_change_reparse ⟨[("v6.cpp", ⟨["-a"], 3, 0⟩)], 0, 1⟩
    ⟨some ["-a"], some 4, true, true⟩ "v6.cpp" ["-a"] ⟨["-a"], 3, 0⟩
    (by decide) rfl (by decide) rfl (by decide) rfl

end SourceIndexModel
